import Mathlib

/-!
Verification of the chart-browser dashboard in `CBL_Report.py`.

Shallow embedding conventions:
* Python strings are `List Char`; `str.lower()` is `Char.toLower` charwise,
  `needle in hay` is substring containment (`containsSub`), and string
  comparison is code-point lexicographic (`lexLe` / `lexLt`).
* A file-metadata tuple `(name, last_modified, size, path)` is `FileMeta`.
* Python's `sorted(l, key=k, reverse=b)` is a stable sort; it is embedded as
  `List.insertionSort` with the relation `a ≼ b ↔ key a ≤ key b` (or the
  flipped relation when `reverse=True`), which is stable for total preorders
  and therefore produces the same list.
* Fallible code returns `Except (List Char) _`, carrying the Python
  exception message.
-/

namespace CBLReport

/-- Charwise lowering, modelling Python `str.lower()` on the file names used
here (ASCII). -/
def toLowerStr (s : List Char) : List Char := s.map Char.toLower

/-- `startsWith hay needle` holds when `needle` is a prefix of `hay`. -/
def startsWith : List Char → List Char → Bool
  | _, [] => true
  | [], _ :: _ => false
  | c :: hs, n :: ns => decide (c = n) && startsWith hs ns

/-- `containsSub hay needle` models Python `needle in hay` (substring test). -/
def containsSub : List Char → List Char → Bool
  | [], needle => needle.isEmpty
  | c :: hs, needle => startsWith (c :: hs) needle || containsSub hs needle

/-- Code-point lexicographic `≤` on strings, modelling Python `str` order. -/
def lexLe : List Char → List Char → Bool
  | [], _ => true
  | _ :: _, [] => false
  | a :: as, b :: bs => decide (a < b) || (decide (a = b) && lexLe as bs)

/-- Code-point lexicographic `<` on strings, modelling Python `str` order. -/
def lexLt : List Char → List Char → Bool
  | [], [] => false
  | [], _ :: _ => true
  | _ :: _, [] => false
  | a :: as, b :: bs => decide (a < b) || (decide (a = b) && lexLt as bs)

/-- One file-metadata tuple `(file_path.name, mtime string, st_size,
str(file_path))` as produced by `get_file_metadata`. -/
structure FileMeta where
  name : List Char
  lastModified : List Char
  size : Nat
  path : List Char
deriving DecidableEq

/-- Sort key string `"Name"`. -/
def nameKey : List Char := "Name".data

/-- Sort key string `"Last Modified"`. -/
def lmKey : List Char := "Last Modified".data

/-- Sort key string `"Size"`. -/
def sizeKey : List Char := "Size".data

/-- Relation used by `sorted(files, key=lambda x: x[0].lower())`
(`SORT_KEYS["Name"]`, `reverse=False`): ascending in the lowered name. -/
def nameRel (a b : FileMeta) : Prop :=
  lexLe (toLowerStr a.name) (toLowerStr b.name) = true

/-- Relation used by `sorted(files, key=lambda x: x[1], reverse=True)`
(`SORT_KEYS["Last Modified"]`): descending in the timestamp string. -/
def lmRel (a b : FileMeta) : Prop :=
  lexLe b.lastModified a.lastModified = true

/-- Relation used by `sorted(files, key=lambda x: x[2], reverse=True)`
(`SORT_KEYS["Size"]`): descending in the byte size. -/
def sizeRel (a b : FileMeta) : Prop := b.size ≤ a.size

/-- Python comparison of the whole 4-tuples
`(name, last_modified, size, path)`, componentwise lexicographic. This is
what `sorted(files, key=None, ...)` compares. -/
def metaTupleLe (x y : FileMeta) : Bool :=
  lexLt x.name y.name ||
    (decide (x.name = y.name) &&
      (lexLt x.lastModified y.lastModified ||
        (decide (x.lastModified = y.lastModified) &&
          (decide (x.size < y.size) ||
            (decide (x.size = y.size) && lexLe x.path y.path)))))

/-- Relation used by `sorted(files, key=None, reverse=True)`: descending in
the whole tuple. -/
def tupleRel (a b : FileMeta) : Prop := metaTupleLe b a = true

instance : DecidableRel nameRel := fun a b =>
  inferInstanceAs (Decidable (lexLe (toLowerStr a.name) (toLowerStr b.name) = true))

instance : DecidableRel lmRel := fun a b =>
  inferInstanceAs (Decidable (lexLe b.lastModified a.lastModified = true))

instance : DecidableRel sizeRel := fun a b =>
  inferInstanceAs (Decidable (b.size ≤ a.size))

instance : DecidableRel tupleRel := fun a b =>
  inferInstanceAs (Decidable (metaTupleLe b a = true))

/-- `sort_files(files, sort_by)`.  The Python body is
`sorted(files, key=SORT_KEYS.get(sort_by), reverse=sort_by != "Name")`
wrapped in `try/except KeyError`.  `dict.get` returns `None` for an unknown
key (it never raises `KeyError`), and `sorted(..., key=None, reverse=True)`
compares the tuples themselves, so the `except KeyError` branch — the one
that would call `handle_error(..., "warning")` and return `files` — is
unreachable.  The second component records whether that warning branch ran:
it is `false` on every path. -/
def sort_files (files : List FileMeta) (sortBy : List Char) :
    List FileMeta × Bool :=
  if sortBy = nameKey then (List.insertionSort nameRel files, false)
  else if sortBy = lmKey then (List.insertionSort lmRel files, false)
  else if sortBy = sizeKey then (List.insertionSort sizeRel files, false)
  else (List.insertionSort tupleRel files, false)

/-- `filter_charts(files_metadata, search_query, selected_types)`:
keep files whose lowered name contains the lowered search term and (when
type filters are selected) whose raw name contains one of the selected
type tokens; identity when both are empty. -/
def filter_charts (files : List FileMeta) (searchQuery : List Char)
    (selectedTypes : List (List Char)) : List FileMeta :=
  let searchTerm := toLowerStr searchQuery
  if searchTerm = [] ∧ selectedTypes = [] then files
  else
    files.filter fun f =>
      containsSub (toLowerStr f.name) searchTerm &&
        (selectedTypes.isEmpty ||
          selectedTypes.any fun t => containsSub f.name t)

/-- `total_pages = (len(filtered_files) + page_size - 1) // page_size`
from `display_pagination_controls`. -/
def totalPages (n p : Nat) : Nat := (n + p - 1) / p

/-- The page slice `filtered_files[start_index:end_index]` with
`start_index = i * page_size` and
`end_index = min((i + 1) * page_size, len(filtered_files))`, exactly as
computed in `main` (and again in `display_all_charts`). -/
def pageSlice {α : Type} (l : List α) (i p : Nat) : List α :=
  (l.drop (i * p)).take (min ((i + 1) * p) l.length - i * p)

/-- The pagination step of `main` (lines 394-403): it computes the current
page slice from the stored `page_number` and `page_size`.  `main` never
writes `page_number` back — only the Previous/Next buttons change it by one
and a directory switch resets it to 0 — so the second component, the page
index in effect after this render, equals the input index unchanged. -/
def renderCurrentPage (pageNumber pageSize : Nat) (filtered : List FileMeta) :
    List FileMeta × Nat :=
  (pageSlice filtered pageNumber pageSize, pageNumber)

/-- Outcome of `file_path.stat()` for one scanned file. -/
inductive StatResult where
  | ok (mtime : List Char) (size : Nat)
  | notFound
  | err (msg : List Char)
deriving DecidableEq

/-- True exactly for the `err` outcome. -/
def StatResult.isErr : StatResult → Bool
  | .err _ => true
  | _ => false

/-- One directory entry fed to `get_file_metadata`: the file's name, its
`str(path)`, and what its `stat()` call does. -/
structure ScanEntry where
  name : List Char
  path : List Char
  stat : StatResult
deriving DecidableEq

/-- `get_file_metadata(file_path)`: a successful `stat` yields the tuple, a
`FileNotFoundError` yields the sentinel `("N/A", 0)` tuple, and any other
exception is re-raised as
`Exception(f"Error getting metadata for {name}: {e}")`. -/
def get_file_metadata (e : ScanEntry) : Except (List Char) FileMeta :=
  match e.stat with
  | StatResult.ok m s => Except.ok ⟨e.name, m, s, e.path⟩
  | StatResult.notFound => Except.ok ⟨e.name, "N/A".data, 0, e.path⟩
  | StatResult.err msg =>
      Except.error ("Error getting metadata for ".data ++ e.name
        ++ ": ".data ++ msg)

/-- The metadata tuple `get_file_metadata` produces on its non-raising
paths (the `err` case is never reached under the hypotheses that use it). -/
def statMeta (e : ScanEntry) : FileMeta :=
  match e.stat with
  | StatResult.ok m s => ⟨e.name, m, s, e.path⟩
  | StatResult.notFound => ⟨e.name, "N/A".data, 0, e.path⟩
  | StatResult.err _ => ⟨e.name, "N/A".data, 0, e.path⟩

/-- The scan loop of `main` (line 353):
`[get_file_metadata(f) for f in all_files_paths]` inside `main`'s
`try`.  The comprehension evaluates entries in order, and the first raised
exception aborts it (later entries are not evaluated); `main`'s top-level
handler then reports that one message. -/
def scanMetadata : List ScanEntry → Except (List Char) (List FileMeta)
  | [] => Except.ok []
  | e :: rest =>
    match get_file_metadata e with
    | Except.error msg => Except.error msg
    | Except.ok m =>
      match scanMetadata rest with
      | Except.error msg => Except.error msg
      | Except.ok ms => Except.ok (m :: ms)

/-- Content found at a chart path when `load_figure_json` opens it. -/
inductive FileContent where
  | missing
  | present (content : List Char)

/-- Message of the `FileNotFoundError` re-raised by `load_figure_json`. -/
def msgMissing (nm : List Char) : List Char :=
  "Chart file not found at: ".data ++ nm

/-- Message produced for an empty file: the `ValueError("Empty JSON file:
...")` raised inside the `try` is caught by the generic `except Exception`
clause of `load_figure_json` and re-raised wrapped in its
"unexpected error" text. -/
def msgEmpty (nm : List Char) : List Char :=
  "An unexpected error occurred loading chart ".data ++ nm
    ++ ": Empty JSON file: ".data ++ nm

/-- `load_figure_json(json_file)`: reads the file text.  A missing file
fails with `msgMissing`; empty content fails with `msgEmpty`; otherwise the
raw text is returned (no JSON parsing happens here — `json.JSONDecodeError`
cannot arise from `f.read()`, decoding is `pio.from_json` in
`display_chart`). -/
def load_figure_json (nm : List Char) (fc : FileContent) :
    Except (List Char) (List Char) :=
  match fc with
  | FileContent.missing => Except.error (msgMissing nm)
  | FileContent.present c =>
      if c = [] then Except.error (msgEmpty nm) else Except.ok c

/-- The user-visible report `handle_error` receives from `display_chart`'s
`except` clause: `f"Error displaying chart {name}: {e}"`. -/
def reportOf (nm e : List Char) : List Char :=
  "Error displaying chart ".data ++ nm ++ ": ".data ++ e

/-- Result of `display_chart` for one chart: either the figure was rendered
or one error report was shown. -/
inductive RenderResult (α : Type) where
  | rendered (fig : α)
  | errorReport (msg : List Char)
deriving DecidableEq

/-- `display_chart(page_prefix, chart_metadata, ...)`: guard on missing
path metadata, then load the text and decode it (`pio.from_json`, an
external call modelled by the `decode` parameter); every exception from
load or decode is caught and reported as one `handle_error` message. -/
def display_chart {α : Type} (meta : FileMeta) (fc : FileContent)
    (decode : List Char → Except (List Char) α) : RenderResult α :=
  if meta.path = [] then
    RenderResult.errorReport
      "Invalid chart metadata provided or file path missing".data
  else
    match load_figure_json meta.name fc with
    | Except.error e => RenderResult.errorReport (reportOf meta.name e)
    | Except.ok s =>
      match decode s with
      | Except.error e => RenderResult.errorReport (reportOf meta.name e)
      | Except.ok fig => RenderResult.rendered fig

/-- The item loop of `display_all_charts` (lines 223-229): walk the page's
files in order; before each item the `loading_all_charts` flag is read, and
a cleared flag breaks the loop.  `flag i` is the value read before item
`i`; the result is the list of items actually rendered. -/
def chartsLoop (flag : Nat → Bool) : List FileMeta → Nat → List FileMeta
  | [], _ => []
  | f :: rest, i => if flag i then f :: chartsLoop flag rest (i + 1) else []

/-- `display_all_charts`: slice the current page (same arithmetic as
`main`) and run the cancellable item loop over it. -/
def display_all_charts (flag : Nat → Bool) (pageNumber pageSize : Nat)
    (filtered : List FileMeta) : List FileMeta :=
  chartsLoop flag (pageSlice filtered pageNumber pageSize) 0

/-- `chart_dir.as_posix().replace('/', '_')` charwise. -/
def replaceSlash : List Char → List Char
  | [] => []
  | c :: rest => (if c = '/' then '_' else c) :: replaceSlash rest

/-- `get_page_prefix(chart_dir)`:
`f"page_{chart_dir.as_posix().replace('/', '_')}_"`. -/
def page_prefix_of (dir : List Char) : List Char :=
  "page_".data ++ replaceSlash dir ++ "_".data

/-- A dashboard directory as selected in the main script: a child
`assets/<name>` of the `assets` root (`parent_directory.iterdir()`), so its
name contains no `'/'`. -/
def dashboardDir (nm : List Char) : List Char := "assets/".data ++ nm

/-- The fixed view-state schema initialised by `init_session_state`. -/
def SESSION_STATE_VARS : List (List Char) :=
  ["search_query".data, "selected_types".data, "page_number".data,
   "sort_by".data, "page_size".data, "all_files".data,
   "selected_chart".data, "loading".data, "error".data,
   "filtered_files".data, "use_async".data, "loading_all_charts".data]

/-- A session-state key as read and written everywhere:
`f"{page_prefix}{key}"`. -/
def stateKey (dir field : List Char) : List Char := page_prefix_of dir ++ field

/-- Example metadata tuple: `a.json`. -/
def exA : FileMeta :=
  ⟨"a.json".data, "2024-01-01 00:00:00".data, 1, "assets/d/a.json".data⟩

/-- Example metadata tuple: `b.json`. -/
def exB : FileMeta :=
  ⟨"b.json".data, "2024-01-02 00:00:00".data, 2, "assets/d/b.json".data⟩

/-- Example metadata tuple: `c.json`. -/
def exC : FileMeta :=
  ⟨"c.json".data, "2024-01-03 00:00:00".data, 3, "assets/d/c.json".data⟩

/-- Example metadata tuple with an upper-case type token in its name. -/
def exRev : FileMeta :=
  ⟨"Revenue_q1.json".data, "2024-01-01 00:00:00".data, 5,
    "assets/d/Revenue_q1.json".data⟩

/-- Example filtered list that has shrunk to three entries. -/
def exFiltered : List FileMeta := [exA, exB, exC]

/-- Example decoder standing in for `pio.from_json` failing. -/
def exDecode (_s : List Char) : Except (List Char) Unit :=
  Except.error "bad json".data

/-- Lexicographic `≤` on strings is total. -/
theorem lexLe_total : ∀ x y : List Char, lexLe x y = true ∨ lexLe y x = true
  | [], [] => Or.inl rfl
  | [], _ :: _ => Or.inl rfl
  | _ :: _, [] => Or.inr rfl
  | a :: as, b :: bs => by
    simp only [lexLe, Bool.or_eq_true, Bool.and_eq_true, decide_eq_true_eq]
    rcases lt_trichotomy a b with h | h | h
    · exact Or.inl (Or.inl h)
    · subst h
      rcases lexLe_total as bs with ih | ih
      · exact Or.inl (Or.inr ⟨rfl, ih⟩)
      · exact Or.inr (Or.inr ⟨rfl, ih⟩)
    · exact Or.inr (Or.inl h)

/-- Lexicographic `≤` on strings is transitive. -/
theorem lexLe_trans :
    ∀ x y z : List Char, lexLe x y = true → lexLe y z = true → lexLe x z = true
  | [], _, _, _, _ => by cases ‹List Char› <;> rfl
  | _ :: _, [], _, h, _ => by simp [lexLe] at h
  | _ :: _, _ :: _, [], _, h => by simp [lexLe] at h
  | a :: as, b :: bs, c :: cs, h1, h2 => by
    simp only [lexLe, Bool.or_eq_true, Bool.and_eq_true, decide_eq_true_eq]
      at h1 h2 ⊢
    rcases h1 with h1 | ⟨he1, h1⟩
    · rcases h2 with h2 | ⟨he2, h2⟩
      · exact Or.inl (lt_trans h1 h2)
      · exact Or.inl (he2 ▸ h1)
    · rcases h2 with h2 | ⟨he2, h2⟩
      · exact Or.inl (he1 ▸ h2)
      · exact Or.inr ⟨he1.trans he2, lexLe_trans as bs cs h1 h2⟩

instance : IsTotal FileMeta nameRel :=
  ⟨fun a b => lexLe_total (toLowerStr a.name) (toLowerStr b.name)⟩

instance : IsTrans FileMeta nameRel :=
  ⟨fun _ _ _ h1 h2 => lexLe_trans _ _ _ h1 h2⟩

instance : IsTotal FileMeta lmRel :=
  ⟨fun a b => (lexLe_total b.lastModified a.lastModified)⟩

instance : IsTrans FileMeta lmRel :=
  ⟨fun _ _ _ h1 h2 => lexLe_trans _ _ _ h2 h1⟩

instance : IsTotal FileMeta sizeRel := ⟨fun a b => Nat.le_total b.size a.size⟩

instance : IsTrans FileMeta sizeRel :=
  ⟨fun _ _ _ h1 h2 => Nat.le_trans h2 h1⟩

/-- C5: for every metadata list, `sort_files` with key `"Name"` returns a
permutation of the input that is ascending in the case-lowered name, with
key `"Last Modified"` a permutation descending in the timestamp field, and
with key `"Size"` a permutation descending in the size field; each
direction is fixed by the key, the result is consistent with the total
order on the corresponding field, and no warning is emitted. -/
theorem sort_files_directions (files : List FileMeta) :
    ((sort_files files nameKey).1.Perm files ∧
      List.Sorted nameRel (sort_files files nameKey).1 ∧
      (sort_files files nameKey).2 = false) ∧
    ((sort_files files lmKey).1.Perm files ∧
      List.Sorted lmRel (sort_files files lmKey).1 ∧
      (sort_files files lmKey).2 = false) ∧
    ((sort_files files sizeKey).1.Perm files ∧
      List.Sorted sizeRel (sort_files files sizeKey).1 ∧
      (sort_files files sizeKey).2 = false) := by
  have hn : sort_files files nameKey = (List.insertionSort nameRel files, false) := by
    unfold sort_files
    rw [if_pos rfl]
  have hl : sort_files files lmKey = (List.insertionSort lmRel files, false) := by
    unfold sort_files
    rw [if_neg (by decide), if_pos rfl]
  have hs : sort_files files sizeKey = (List.insertionSort sizeRel files, false) := by
    unfold sort_files
    rw [if_neg (by decide), if_neg (by decide), if_pos rfl]
  refine ⟨?_, ?_, ?_⟩
  · rw [hn]
    exact ⟨List.perm_insertionSort _ _, List.sorted_insertionSort _ _, rfl⟩
  · rw [hl]
    exact ⟨List.perm_insertionSort _ _, List.sorted_insertionSort _ _, rfl⟩
  · rw [hs]
    exact ⟨List.perm_insertionSort _ _, List.sorted_insertionSort _ _, rfl⟩

/-- C1: the claim says an unknown sort key makes `sort_files` report a
warning and return the input unchanged.  In the code `SORT_KEYS.get`
returns `None` for an unknown key instead of raising `KeyError`, so
`sorted(files, key=None, reverse=True)` silently reverse-sorts the tuples
and the warning branch never runs: on `[exA, exB]` with key `"Bogus"` the
result is the reordered `[exB, exA]` with no warning, contradicting the
claim (only its "never raises" part holds). -/
theorem sort_files_bogus_eval :
    sort_files [exA, exB] "Bogus".data = ([exB, exA], false) ∧
    ([exB, exA] : List FileMeta) ≠ [exA, exB] := by
  constructor
  · rfl
  · decide

/-- C2: the claim says the page index is clamped into
`[0, total_pages - 1]` whenever the filtered length changes.  The code
never recomputes `page_number`: with three files left, page size 10 and
stored page index 1, the render keeps index 1 (out of the valid range
`[0, 0]`, since `total_pages = 1`) and shows an empty page, violating the
invariant `page_index * page_size ≤ length - 1`. -/
theorem render_page_index_unclamped :
    (renderCurrentPage 1 10 exFiltered).2 = 1 ∧
    (renderCurrentPage 1 10 exFiltered).1 = [] ∧
    totalPages exFiltered.length 10 = 1 ∧
    ¬ (renderCurrentPage 1 10 exFiltered).2 ≤ totalPages exFiltered.length 10 - 1 ∧
    ¬ (renderCurrentPage 1 10 exFiltered).2 * 10 ≤ exFiltered.length - 1 := by
  refine ⟨rfl, ?_, rfl, by decide, by decide⟩
  rfl

/-- A page slice is also `take page_size` of the dropped list. -/
theorem pageSlice_eq {α : Type} (l : List α) (i p : Nat) :
    pageSlice l i p = (l.drop (i * p)).take p := by
  unfold pageSlice
  rcases le_or_lt ((i + 1) * p) l.length with h | h
  · rw [min_eq_left h, Nat.succ_mul, Nat.add_sub_cancel_left]
  · rw [min_eq_right (le_of_lt h)]
    have h1 : (l.drop (i * p)).take (l.length - i * p) = l.drop (i * p) := by
      apply List.take_of_length_le
      rw [List.length_drop]
    have h2 : (l.drop (i * p)).take p = l.drop (i * p) := by
      apply List.take_of_length_le
      rw [List.length_drop]
      rw [Nat.succ_mul] at h
      omega
    rw [h1, h2]

/-- Concatenating the first `k` pages gives the first `k * p` items. -/
theorem pages_flatten_take {α : Type} (l : List α) (p : Nat) :
    ∀ k, ((List.range k).map fun i => pageSlice l i p).flatten = l.take (k * p)
  | 0 => by rw [Nat.zero_mul, List.take_zero]; rfl
  | k + 1 => by
    rw [List.range_succ, List.map_append, List.flatten_append,
      pages_flatten_take l p k]
    simp only [List.map_cons, List.map_nil, List.flatten_cons,
      List.flatten_nil, List.append_nil]
    rw [pageSlice_eq, Nat.succ_mul, List.take_add]

/-- `total_pages * page_size` covers the whole list. -/
theorem le_totalPages_mul (n p : Nat) (hp : 0 < p) : n ≤ totalPages n p * p := by
  unfold totalPages
  have h1 := Nat.div_add_mod (n + p - 1) p
  have h2 := Nat.mod_lt (n + p - 1) hp
  rw [Nat.mul_comm]
  generalize hq : p * ((n + p - 1) / p) = t at h1 ⊢
  generalize hr : (n + p - 1) % p = r at h1 h2
  omega

/-- `totalPages` is the least page count covering the list: it is the
ceiling of `n / p`. -/
theorem totalPages_min (n p k : Nat) (hp : 0 < p) (h : n ≤ k * p) :
    totalPages n p ≤ k := by
  unfold totalPages
  have h2 : n + p - 1 < (k + 1) * p := by
    rw [Nat.succ_mul]
    generalize k * p = t at h ⊢
    omega
  exact Nat.lt_succ_iff.mp ((Nat.div_lt_iff_lt_mul hp).mpr h2)

/-- C4: for page size `p > 0`, page `i` is the half-open slice
`[i*p, min((i+1)*p, n))`, the concatenation of all `totalPages` pages in
index order reproduces the filtered list exactly (no gaps, no duplicates),
and `totalPages` is exactly `ceil(n / p)`: the least `k` with `n ≤ k * p`. -/
theorem pagination_partition {α : Type} (l : List α) (p : Nat) (hp : 0 < p) :
    ((List.range (totalPages l.length p)).map fun i => pageSlice l i p).flatten = l ∧
    (∀ i, pageSlice l i p
        = (l.drop (i * p)).take (min ((i + 1) * p) l.length - i * p)) ∧
    l.length ≤ totalPages l.length p * p ∧
    (∀ k, l.length ≤ k * p → totalPages l.length p ≤ k) := by
  refine ⟨?_, fun i => rfl, le_totalPages_mul l.length p hp,
    fun k hk => totalPages_min _ _ _ hp hk⟩
  rw [pages_flatten_take]
  exact List.take_of_length_le (le_totalPages_mul l.length p hp)

/-- C4 witness: a concrete three-element list with page size 2 splits into
pages `[0, 1]` and `[2]` whose concatenation is the list. -/
theorem pagination_partition_witness :
    0 < 2 ∧
    ((List.range (totalPages (List.length [0, 1, 2]) 2)).map
        fun i => pageSlice ([0, 1, 2] : List Nat) i 2).flatten = [0, 1, 2] :=
  ⟨by decide, (pagination_partition [0, 1, 2] 2 (by decide)).1⟩

/-- Every string contains the empty substring, as in Python. -/
theorem containsSub_nil : ∀ hay : List Char, containsSub hay [] = true
  | [] => rfl
  | _ :: _ => rfl

/-- C6: `filter_charts` keeps exactly the files whose lowered name contains
the lowered search string and, when the type-filter list is non-empty,
whose raw name contains at least one selected type token; with empty search
and empty type filters it is the identity. -/
theorem filter_charts_spec (files : List FileMeta) (s : List Char)
    (T : List (List Char)) :
    (∀ f, f ∈ filter_charts files s T ↔
        f ∈ files ∧ containsSub (toLowerStr f.name) (toLowerStr s) = true ∧
          (T = [] ∨ ∃ t ∈ T, containsSub f.name t = true)) ∧
    filter_charts files [] [] = files := by
  constructor
  · intro f
    unfold filter_charts
    by_cases hc : toLowerStr s = [] ∧ T = []
    · rw [if_pos hc]
      obtain ⟨h1, h2⟩ := hc
      rw [h1, h2]
      simp [containsSub_nil]
    · rw [if_neg hc]
      simp only [List.mem_filter, Bool.and_eq_true, Bool.or_eq_true,
        List.any_eq_true, List.isEmpty_iff]
  · unfold filter_charts
    rw [if_pos ⟨rfl, rfl⟩]

/-- C10: the search substring is matched case-insensitively (the upper-case
query `"REVENUE"` still selects `Revenue_q1.json`), but selected type
tokens are matched case-sensitively against the raw name: the type filter
`["revenue"]` excludes `Revenue_q1.json` even though its type token matches
ignoring case. -/
theorem type_filter_case_sensitivity :
    filter_charts [exRev] "REVENUE".data [] = [exRev] ∧
    filter_charts [exRev] [] ["revenue".data] = [] ∧
    containsSub (toLowerStr exRev.name) (toLowerStr "revenue".data) = true ∧
    containsSub exRev.name "revenue".data = false := by
  refine ⟨by decide, by decide, by decide, by decide⟩

/-- A scan over entries whose stat calls never hit the generic error path
succeeds, producing the tuple (or the `"N/A"` sentinel) for every entry. -/
theorem scanMetadata_ok :
    ∀ entries : List ScanEntry, (∀ e ∈ entries, e.stat.isErr = false) →
      scanMetadata entries = Except.ok (entries.map statMeta)
  | [], _ => rfl
  | e :: rest, h => by
    have he := h e (List.mem_cons_self e rest)
    have ih := scanMetadata_ok rest fun x hx => h x (List.mem_cons_of_mem e hx)
    cases hst : e.stat with
    | ok m s => simp [scanMetadata, get_file_metadata, statMeta, hst, ih]
    | notFound => simp [scanMetadata, get_file_metadata, statMeta, hst, ih]
    | err msg => rw [hst] at he; simp [StatResult.isErr] at he

/-- The first entry whose stat raises a non-`FileNotFoundError` exception
aborts the whole comprehension with that entry's message. -/
theorem scanMetadata_err :
    ∀ (pre : List ScanEntry) (post : List ScanEntry) (nm pth msg : List Char),
      (∀ e ∈ pre, e.stat.isErr = false) →
      scanMetadata (pre ++ ⟨nm, pth, StatResult.err msg⟩ :: post)
        = Except.error ("Error getting metadata for ".data ++ nm
            ++ ": ".data ++ msg)
  | [], _, _, _, _, _ => by simp [scanMetadata, get_file_metadata]
  | e :: pre, post, nm, pth, msg, h => by
    have he := h e (List.mem_cons_self e pre)
    have ih := scanMetadata_err pre post nm pth msg
      fun x hx => h x (List.mem_cons_of_mem e hx)
    cases hst : e.stat with
    | ok m s => simp [scanMetadata, get_file_metadata, hst, ih]
    | notFound => simp [scanMetadata, get_file_metadata, hst, ih]
    | err m2 => rw [hst] at he; simp [StatResult.isErr] at he

/-- C3 counterexample: the claim says a non-stat per-file extraction error
is reported for that file only while the remaining files are still scanned.
In the code the list comprehension in `main` has no per-file handler, so
the wrapped exception from `b.json` aborts the whole scan: no metadata list
is produced at all, and `c.json` is never reached. -/
theorem scan_error_aborts_whole :
    scanMetadata
        [⟨"a.json".data, "pa".data, StatResult.ok "2024-01-01 00:00:00".data 1⟩,
         ⟨"b.json".data, "pb".data, StatResult.err "boom".data⟩,
         ⟨"c.json".data, "pc".data, StatResult.ok "2024-01-03 00:00:00".data 3⟩]
      = Except.error ("Error getting metadata for ".data ++ "b.json".data
          ++ ": ".data ++ "boom".data) ∧
    ¬ ∃ ms, scanMetadata
        [⟨"a.json".data, "pa".data, StatResult.ok "2024-01-01 00:00:00".data 1⟩,
         ⟨"b.json".data, "pb".data, StatResult.err "boom".data⟩,
         ⟨"c.json".data, "pc".data, StatResult.ok "2024-01-03 00:00:00".data 3⟩]
      = Except.ok ms := by
  refine ⟨rfl, ?_⟩
  rintro ⟨ms, h⟩
  rw [show scanMetadata
      [⟨"a.json".data, "pa".data, StatResult.ok "2024-01-01 00:00:00".data 1⟩,
       ⟨"b.json".data, "pb".data, StatResult.err "boom".data⟩,
       ⟨"c.json".data, "pc".data, StatResult.ok "2024-01-03 00:00:00".data 3⟩]
      = Except.error ("Error getting metadata for ".data ++ "b.json".data
          ++ ": ".data ++ "boom".data) from rfl] at h
  exact Except.noConfusion h

/-- C3 amended: a `FileNotFoundError` from a file's `stat` is absorbed by
`get_file_metadata` as the sentinel `("N/A", size 0)` tuple and the
remaining files are still scanned; any other per-file extraction error is
re-raised and, having no per-file handler in the scan loop, aborts the
whole scan with that single file's message (main's top-level handler
reports it once). -/
theorem scan_per_file_policy (entries pre post : List ScanEntry)
    (nm pth msg : List Char)
    (hok : ∀ e ∈ entries, e.stat.isErr = false)
    (hpre : ∀ e ∈ pre, e.stat.isErr = false) :
    scanMetadata entries = Except.ok (entries.map statMeta) ∧
    (∀ e ∈ entries, e.stat = StatResult.notFound →
        statMeta e = ⟨e.name, "N/A".data, 0, e.path⟩) ∧
    scanMetadata (pre ++ ⟨nm, pth, StatResult.err msg⟩ :: post)
      = Except.error ("Error getting metadata for ".data ++ nm
          ++ ": ".data ++ msg) := by
  refine ⟨scanMetadata_ok entries hok, ?_, scanMetadata_err pre post nm pth msg hpre⟩
  intro e _ hst
  simp [statMeta, hst]

/-- C3 witness: a concrete scan where one stat call fails with
`FileNotFoundError` still yields every file (with the sentinel), while a
scan containing a generic stat error aborts with that file's message. -/
theorem scan_per_file_policy_witness :
    scanMetadata
        [⟨"a.json".data, "pa".data, StatResult.ok "2024-01-01 00:00:00".data 1⟩,
         ⟨"b.json".data, "pb".data, StatResult.notFound⟩]
      = Except.ok
          [⟨"a.json".data, "2024-01-01 00:00:00".data, 1, "pa".data⟩,
           ⟨"b.json".data, "N/A".data, 0, "pb".data⟩] ∧
    scanMetadata
        [⟨"b.json".data, "pb".data, StatResult.err "boom".data⟩]
      = Except.error ("Error getting metadata for ".data ++ "b.json".data
          ++ ": ".data ++ "boom".data) := by
  have h := scan_per_file_policy
    [⟨"a.json".data, "pa".data, StatResult.ok "2024-01-01 00:00:00".data 1⟩,
     ⟨"b.json".data, "pb".data, StatResult.notFound⟩]
    [] [] "b.json".data "pb".data "boom".data (by decide) (by decide)
  exact ⟨h.1, h.2.2⟩

/-- Two reports for the same chart coincide only if the underlying
exception messages coincide. -/
theorem reportOf_inj {nm e1 e2 : List Char}
    (h : reportOf nm e1 = reportOf nm e2) : e1 = e2 := by
  unfold reportOf at h
  rw [List.append_assoc, List.append_assoc, List.append_assoc,
    List.append_assoc] at h
  exact List.append_cancel_left (List.append_cancel_left
    (List.append_cancel_left h))

/-- The missing-file message and the empty-file message are distinct for
every chart name (their lengths differ: `25 + n` versus `62 + 2n`). -/
theorem msgMissing_ne_msgEmpty (nm : List Char) : msgMissing nm ≠ msgEmpty nm := by
  intro h
  have hl := congrArg List.length h
  simp only [msgMissing, msgEmpty, List.length_append] at hl
  rw [show ("Chart file not found at: ".data).length = 25 from rfl,
    show ("An unexpected error occurred loading chart ".data).length = 43 from rfl,
    show (": Empty JSON file: ".data).length = 19 from rfl] at hl
  omega

/-- C7: loading a chart yields three distinct, individually reported error
conditions.  A nonexistent path is reported with the missing-file message;
an existing but empty file with the (wrapped) empty-file message; content
the plotting library cannot decode with the decoder's message; and at the
point of reporting (`handle_error` in `display_chart`) the three reports
are pairwise distinct provided the decoder's message is not literally one
of the two fixed load messages. -/
theorem load_error_conditions {α : Type} (meta : FileMeta) (c m : List Char)
    (decode : List Char → Except (List Char) α)
    (hpath : meta.path ≠ []) (hc : c ≠ [])
    (hdec : decode c = Except.error m)
    (hm1 : m ≠ msgMissing meta.name) (hm2 : m ≠ msgEmpty meta.name) :
    display_chart meta FileContent.missing decode
      = RenderResult.errorReport (reportOf meta.name (msgMissing meta.name)) ∧
    display_chart meta (FileContent.present []) decode
      = RenderResult.errorReport (reportOf meta.name (msgEmpty meta.name)) ∧
    display_chart meta (FileContent.present c) decode
      = RenderResult.errorReport (reportOf meta.name m) ∧
    reportOf meta.name (msgMissing meta.name)
      ≠ reportOf meta.name (msgEmpty meta.name) ∧
    reportOf meta.name m ≠ reportOf meta.name (msgMissing meta.name) ∧
    reportOf meta.name m ≠ reportOf meta.name (msgEmpty meta.name) := by
  refine ⟨?_, ?_, ?_, ?_, ?_, ?_⟩
  · simp [display_chart, load_figure_json, hpath]
  · simp [display_chart, load_figure_json, hpath]
  · simp [display_chart, load_figure_json, hpath, hc, hdec]
  · exact fun h => msgMissing_ne_msgEmpty meta.name (reportOf_inj h)
  · exact fun h => hm1 (reportOf_inj h)
  · exact fun h => hm2 (reportOf_inj h)

/-- C7 witness: for the chart `Revenue_q1.json` with the failing decoder
`exDecode`, the three error conditions produce three concrete, pairwise
distinct reports. -/
theorem load_error_conditions_witness :
    display_chart exRev FileContent.missing exDecode
      = RenderResult.errorReport (reportOf exRev.name (msgMissing exRev.name)) ∧
    display_chart exRev (FileContent.present []) exDecode
      = RenderResult.errorReport (reportOf exRev.name (msgEmpty exRev.name)) ∧
    display_chart exRev (FileContent.present "x".data) exDecode
      = RenderResult.errorReport (reportOf exRev.name "bad json".data) ∧
    reportOf exRev.name (msgMissing exRev.name)
      ≠ reportOf exRev.name (msgEmpty exRev.name) ∧
    reportOf exRev.name "bad json".data
      ≠ reportOf exRev.name (msgMissing exRev.name) ∧
    reportOf exRev.name "bad json".data
      ≠ reportOf exRev.name (msgEmpty exRev.name) :=
  load_error_conditions exRev "x".data "bad json".data exDecode
    (by decide) (by decide) rfl (by decide) (by decide)

/-- The item loop renders the longest prefix of the page on which the
flag reads true: if the flag is true before each of the first `k` items and
false at the next check, exactly the first `k` items are rendered. -/
theorem chartsLoop_take (flag : Nat → Bool) :
    ∀ (l : List FileMeta) (j k : Nat),
      (∀ i, i < k → flag (j + i) = true) → flag (j + k) = false →
      chartsLoop flag l j = l.take k
  | [], _, _, _, _ => by rw [List.take_nil]; rfl
  | f :: rest, j, 0, _, hstop => by
    rw [Nat.add_zero] at hstop
    rw [List.take_zero]
    unfold chartsLoop
    rw [hstop]
    rfl
  | f :: rest, j, k + 1, hk, hstop => by
    have h0 : flag j = true := by
      have := hk 0 (Nat.succ_pos k)
      rwa [Nat.add_zero] at this
    have ih := chartsLoop_take flag rest (j + 1) k
      (fun i hi => by
        have := hk (i + 1) (Nat.succ_lt_succ hi)
        rwa [show j + (i + 1) = j + 1 + i by omega] at this)
      (by rwa [show j + 1 + k = j + (k + 1) by omega])
    unfold chartsLoop
    rw [h0, if_pos rfl, ih, List.take_succ_cons]

/-- C8: batch display walks the current page strictly in order, reading the
cancellation flag before each item.  If the flag reads true before each of
the first `k` items and false at the next check, then exactly the first `k`
items of the page slice are rendered — already-rendered items stay, and no
later item of the page is loaded or rendered. -/
theorem batch_display_cancellation (flag : Nat → Bool)
    (pageNumber pageSize k : Nat) (filtered : List FileMeta)
    (hk : ∀ i, i < k → flag i = true) (hstop : flag k = false) :
    display_all_charts flag pageNumber pageSize filtered
      = (pageSlice filtered pageNumber pageSize).take k := by
  unfold display_all_charts
  exact chartsLoop_take flag _ 0 k
    (fun i hi => by have := hk i hi; rwa [Nat.zero_add])
    (by rwa [Nat.zero_add])

/-- C8 witness: cancelling after 2 of 5 items leaves exactly the first 2
items rendered. -/
theorem batch_display_cancellation_witness :
    display_all_charts (fun i => decide (i < 2)) 0 10
        [exA, exB, exC, exRev,
         ⟨"e.json".data, "2024-01-05 00:00:00".data, 4, "assets/d/e.json".data⟩]
      = [exA, exB] := by
  have h := batch_display_cancellation (fun i => decide (i < 2)) 0 10 2
    [exA, exB, exC, exRev,
     ⟨"e.json".data, "2024-01-05 00:00:00".data, 4, "assets/d/e.json".data⟩]
    (fun i hi => by simp [hi]) (by decide)
  rw [h]
  rfl

/-- `replace` distributes over concatenation. -/
theorem replaceSlash_append :
    ∀ a b : List Char, replaceSlash (a ++ b) = replaceSlash a ++ replaceSlash b
  | [], _ => rfl
  | c :: a, b => by
    simp only [List.cons_append, replaceSlash]
    exact congrArg _ (replaceSlash_append a b)

/-- `replace('/', '_')` fixes any string without a slash, such as a file or
directory name. -/
theorem replaceSlash_eq_self :
    ∀ nm : List Char, '/' ∉ nm → replaceSlash nm = nm
  | [], _ => rfl
  | c :: rest, h => by
    have hc : c ≠ '/' := fun hcc => h (List.mem_cons.mpr (Or.inl hcc.symm))
    have hr : '/' ∉ rest := fun hm => h (List.mem_cons.mpr (Or.inr hm))
    simp only [replaceSlash, if_neg hc, replaceSlash_eq_self rest hr]

/-- The page prefix of the dashboard directory `assets/<name>` in closed
form. -/
theorem page_prefix_dashboard (nm : List Char) (h : '/' ∉ nm) :
    page_prefix_of (dashboardDir nm)
      = "page_assets_".data ++ (nm ++ "_".data) := by
  unfold page_prefix_of dashboardDir
  rw [replaceSlash_append, replaceSlash_eq_self nm h,
    show replaceSlash "assets/".data = "assets_".data from rfl,
    ← List.append_assoc "page_".data "assets_".data nm,
    show "page_".data ++ "assets_".data = "page_assets_".data from rfl,
    List.append_assoc]

/-- No schema field is another schema field preceded by an underscore, so
`<name>_<field>` parses unambiguously for slash-free names. -/
theorem schema_no_sep_suffix :
    ∀ g1 ∈ SESSION_STATE_VARS, ∀ g2 ∈ SESSION_STATE_VARS,
      ¬ (('_' :: g1) <:+ g2) := by decide

/-- If `a ++ "_" ++ f1 = b ++ "_" ++ f2` for schema fields `f1`, `f2`, the
name parts agree. -/
theorem sep_append_inj {a b f1 f2 : List Char}
    (hf1 : f1 ∈ SESSION_STATE_VARS) (hf2 : f2 ∈ SESSION_STATE_VARS)
    (h : a ++ '_' :: f1 = b ++ '_' :: f2) : a = b := by
  have heqf : f1 = f2 := by
    have s1 : ('_' :: f1) <:+ (b ++ '_' :: f2) :=
      h ▸ List.suffix_append a ('_' :: f1)
    have s2 : ('_' :: f2) <:+ (b ++ '_' :: f2) :=
      List.suffix_append b ('_' :: f2)
    rcases List.suffix_or_suffix_of_suffix s1 s2 with hs | hs
    · rcases List.suffix_cons_iff.mp hs with he | hs2
      · injection he with he1 he2
      · exact absurd hs2 (schema_no_sep_suffix f1 hf1 f2 hf2)
    · rcases List.suffix_cons_iff.mp hs with he | hs2
      · injection he with he1 he2
        exact he2.symm
      · exact absurd hs2 (schema_no_sep_suffix f2 hf2 f1 hf1)
  subst heqf
  exact List.append_cancel_right h

/-- C9: the namespace key is a deterministic function of the directory
path, and for distinct dashboard directories (distinct slash-free children
of `assets/`) the derived page prefixes are distinct; moreover the full
session-state keys `prefix ++ field` for any two schema fields of distinct
dashboards are distinct, so two dashboard instances never read or write
each other's view-state fields. -/
theorem namespace_isolation (n1 n2 f1 f2 : List Char)
    (h1 : '/' ∉ n1) (h2 : '/' ∉ n2) (hne : n1 ≠ n2)
    (hf1 : f1 ∈ SESSION_STATE_VARS) (hf2 : f2 ∈ SESSION_STATE_VARS) :
    page_prefix_of (dashboardDir n1) ≠ page_prefix_of (dashboardDir n2) ∧
    stateKey (dashboardDir n1) f1 ≠ stateKey (dashboardDir n2) f2 := by
  constructor
  · intro h
    rw [page_prefix_dashboard n1 h1, page_prefix_dashboard n2 h2] at h
    exact hne (List.append_cancel_right (List.append_cancel_left h))
  · intro h
    unfold stateKey at h
    rw [page_prefix_dashboard n1 h1, page_prefix_dashboard n2 h2] at h
    simp only [List.append_assoc] at h
    have h3 := List.append_cancel_left h
    have h4 : n1 ++ '_' :: f1 = n2 ++ '_' :: f2 := h3
    exact hne (sep_append_inj hf1 hf2 h4)

/-- C9 witness: the dashboards `assets/dir1` and `assets/dir2` get distinct
prefixes and distinct `page_number` state keys. -/
theorem namespace_isolation_witness :
    page_prefix_of (dashboardDir "dir1".data)
      ≠ page_prefix_of (dashboardDir "dir2".data) ∧
    stateKey (dashboardDir "dir1".data) "page_number".data
      ≠ stateKey (dashboardDir "dir2".data) "page_number".data :=
  namespace_isolation "dir1".data "dir2".data "page_number".data
    "page_number".data (by decide) (by decide) (by decide) (by decide)
    (by decide)

end CBLReport
